import Mathlib

/-!
Verification of the modality graph and lazy derivation engine of the
speech-articulation toolkit (satkit): a shallow embedding of
`satkit/data_structures.py`, `satkit/metrics/spline_metric.py` and
`satkit/metrics/downsample_metric.py`, followed by theorems settling the
frozen claims about that code.

Python strings are embedded as `List Char`, numpy scalars as `ℚ`, numpy
arrays as explicit structures carrying dtype and shape, `None`-able values
as `Option`, and raising code as `Except PyErr`.
-/

namespace Satkit

/-- Python exception kinds raised by the embedded code.  `missingDataError`,
`overWriteError` and `modalityError` are satkit's own error classes
(`satkit.errors`); the rest are Python built-ins. -/
inductive PyErr where
  | missingDataError
  | overWriteError
  | modalityError
  | notImplementedError
  | typeError
  | valueError
  | attributeError
  | keyError
  | indexError
  deriving DecidableEq, Repr

/-- Characters of a Python string literal. -/
def pychars (s : String) : List Char := s.toList

/-- Python truthiness of an `Optional[str]`: `None` and `""` are falsy. -/
def truthyStr (s : Option (List Char)) : Bool :=
  match s with
  | none => false
  | some cs => cs ≠ []

/-- Python falsiness of an `Optional[float]`: `None` and `0.0` are falsy
(the check `if not self._sampling_rate` / `if not self._time_offset`). -/
def falsyQ (x : Option ℚ) : Bool :=
  match x with
  | none => true
  | some q => q = 0

/-- Truth value of a numpy array (`if self.timevector:`): an empty array is
falsy, a one-element array has the truth value of its element, and any
larger array raises `ValueError` ("truth value of an array ... is
ambiguous"). -/
def npTruth (l : List ℚ) : Except PyErr Bool :=
  match l with
  | [] => .ok false
  | [x] => .ok (x ≠ 0)
  | _ :: _ :: _ => .error .valueError

/-- Embedding of a numpy ndarray as used by Modality data: `rows` are the
slices along the leading time axis (so `rows.length` is the number of time
samples), `tshape` the trailing dimensions of `shape`, and `dtype` the
element type tag. -/
structure NDArr where
  dtype : List Char
  tshape : List Nat
  rows : List (List ℚ)
  deriving DecidableEq, Repr

/-- The numpy `shape` of the array: time axis first. -/
def NDArr.shape (a : NDArr) : List Nat := a.rows.length :: a.tshape

/-- The numpy `size` of the array: product of the shape. -/
def NDArr.size (a : NDArr) : Nat := a.shape.prod

/-- `ModalityData`: the immutable bundle {data, sampling_rate, timevector}
passed from loaders/derivers into a Modality (dataclass in
`data_structures.py`; none of the fields is optional). -/
structure ModalityData where
  data : NDArr
  sampling_rate : ℚ
  timevector : List ℚ
  deriving DecidableEq, Repr

/-- `ModalityMetaData`: base class of Modality metadata, carrying the
optional parent-modality name (`parent_name: Optional[str] = None`). -/
structure ModalityMetaData where
  parent_name : Option (List Char) := none
  deriving DecidableEq, Repr

/-- The mutable state of a `Modality` instance: identity (`className`
stands for `self.__class__.__name__`), the three potential data sources
(`data_path`, `load_path`, `metadata.parent_name`), and the lazily
populated private fields `_data`, `_sampling_rate`, `_timevector`,
`_time_offset` exactly as assigned by `Modality.__init__`. -/
structure Modality where
  className : List Char
  data_path : Option (List Char) := none
  load_path : Option (List Char) := none
  metaPath : Option (List Char) := none
  metadata : Option ModalityMetaData := none
  dataF : Option NDArr := none
  samplingRateF : Option ℚ := none
  timevectorF : Option (List ℚ) := none
  timeOffsetF : Option ℚ := none
  excluded : Bool := false
  deriving DecidableEq, Repr

/-- The three overridable loading routines `_read_data`, `_load_data`,
`_derive_data` of a concrete Modality subclass, abstracted as oracles.  On
the abstract base class all three raise `NotImplementedError`. -/
structure Loaders where
  read : Except PyErr ModalityData
  load : Except PyErr ModalityData
  derive : Except PyErr ModalityData

/-- Loaders of the abstract base class: every routine raises
`NotImplementedError` (to be overridden by inheriting classes). -/
def baseLoaders : Loaders :=
  { read := .error .notImplementedError
    load := .error .notImplementedError
    derive := .error .notImplementedError }

/-- `Modality._get_data`: pick the data source.  `data_path` wins, then
`load_path`, then a truthy `metadata.parent_name`; with no source at all it
raises `MissingDataError`.  Reading `self.metadata.parent_name` when
`metadata` is `None` raises `AttributeError`. -/
def getData (m : Modality) (L : Loaders) : Except PyErr ModalityData :=
  if m.data_path.isSome then L.read
  else if m.load_path.isSome then L.load
  else
    match m.metadata with
    | none => .error .attributeError
    | some md =>
        if truthyStr md.parent_name then L.derive
        else .error .missingDataError

/-- `Modality._set_data`: writes `_data`, `_timevector` and
`_sampling_rate` from a `ModalityData`.  Note that it does not touch
`_time_offset`. -/
def setData (m : Modality) (d : ModalityData) : Modality :=
  { m with dataF := some d.data
           timevectorF := some d.timevector
           samplingRateF := some d.sampling_rate }

/-- The `Modality.data` property getter: if `_data` is `None`, materialize
through `_get_data`/`_set_data`; return the array and the updated state. -/
def dataGet (m : Modality) (L : Loaders) : Except PyErr (NDArr × Modality) :=
  match m.dataF with
  | some d => .ok (d, m)
  | none =>
      match getData m L with
      | .error e => .error e
      | .ok md => .ok (md.data, setData m md)

/-- The `Modality.timevector` property getter: materializes when
`_timevector is None`. -/
def timevectorGet (m : Modality) (L : Loaders) :
    Except PyErr (List ℚ × Modality) :=
  match m.timevectorF with
  | some tv => .ok (tv, m)
  | none =>
      match getData m L with
      | .error e => .error e
      | .ok md => .ok (md.timevector, setData m md)

/-- The `Modality.sampling_rate` property getter: the guard is
`if not self._sampling_rate`, so a cached rate of `0.0` also re-enters
materialization. -/
def samplingRateGet (m : Modality) (L : Loaders) :
    Except PyErr (ℚ × Modality) :=
  if falsyQ m.samplingRateF then
    match getData m L with
    | .error e => .error e
    | .ok md => .ok (md.sampling_rate, setData m md)
  else .ok (m.samplingRateF.getD 0, m)

/-- The `Modality.time_offset` property getter: the guard is
`if not self._time_offset`, so a cached offset of `0.0` re-enters
materialization; `_set_data` does not write `_time_offset`, so the getter
then still returns the old cached value. -/
def timeOffsetGet (m : Modality) (L : Loaders) :
    Except PyErr (Option ℚ × Modality) :=
  if falsyQ m.timeOffsetF then
    match getData m L with
    | .error e => .error e
    | .ok md =>
        let m' := setData m md
        .ok (m'.timeOffsetF, m')
  else .ok (m.timeOffsetF, m)

/-- The `Modality.time_offset` property setter: stores the new offset, then
evaluates `if self.timevector:` — a property access (materializing when
unset) followed by numpy truthiness of the resulting array — and on a
truthy result shifts the whole timevector so that its first entry equals
the new offset (`self.timevector + (time_offset - self.timevector[0])`,
a numpy broadcast add). -/
def timeOffsetSet (m : Modality) (L : Loaders) (t : ℚ) :
    Except PyErr Modality :=
  let m1 := { m with timeOffsetF := some t }
  match timevectorGet m1 L with
  | .error e => .error e
  | .ok (tv, m2) =>
      match npTruth tv with
      | .error e => .error e
      | .ok true =>
          .ok { m2 with
                  timevectorF := some (tv.map (fun y => y + (t - tv.headD 0))) }
      | .ok false => .ok m2

/-- `Modality._data_setter`: the guard is
`if self.data is not None and data is not None:` — note `self.data`, the
materializing property, not `self._data`; evaluating it can itself load
data or raise.  After a successful materialization the resident array is
never `None`, so the guard reduces to whether the new value is an array.
Replacement requires exact dtype, size and shape match against `_data`,
else `OverWriteError`; assigning `None` stores `None`. -/
def dataSetter (m : Modality) (L : Loaders) (newData : Option NDArr) :
    Except PyErr Modality :=
  match dataGet m L with
  | .error e => .error e
  | .ok (cur, m1) =>
      match newData with
      | some nd =>
          if nd.dtype = cur.dtype ∧ nd.size = cur.size ∧ nd.shape = cur.shape
          then .ok { m1 with dataF := some nd }
          else .error .overWriteError
      | none => .ok { m1 with dataF := none }

/-- `Modality.__init__` restricted to the fields the claims touch: when
`parsed_data` is given, `_data`, `_sampling_rate` and `_timevector` come
from it and `_time_offset` is `self._timevector[0]` (an `IndexError` on an
empty timevector); otherwise all three stay `None` and `_time_offset` is
the `time_offset` argument. -/
def modalityInit (className : List Char) (parsed : Option ModalityData)
    (metadata : Option ModalityMetaData)
    (dataPath metaPath loadPath : Option (List Char))
    (timeOffset : Option ℚ) : Except PyErr Modality :=
  match parsed with
  | some pd =>
      match pd.timevector with
      | [] => .error .indexError
      | t0 :: _ =>
          .ok { className := className
                data_path := dataPath
                load_path := loadPath
                metaPath := metaPath
                metadata := metadata
                dataF := some pd.data
                samplingRateF := some pd.sampling_rate
                timevectorF := some pd.timevector
                timeOffsetF := some t0
                excluded := false }
  | none =>
      .ok { className := className
            data_path := dataPath
            load_path := loadPath
            metaPath := metaPath
            metadata := metadata
            dataF := none
            samplingRateF := none
            timevectorF := none
            timeOffsetF := timeOffset
            excluded := false }

/-- The base `Modality.name` property: the class name, suffixed with
`" on " + parent_name` when metadata is present and carries a truthy
parent name. -/
def modalityName (m : Modality) : List Char :=
  match m.metadata with
  | some md =>
      match md.parent_name with
      | some p => if p ≠ [] then m.className ++ pychars " on " ++ p else m.className
      | none => m.className
  | none => m.className

/-- Python slicing `l[::r]` for a positive stride `r`: keep every `r`-th
element starting from index 0.  (Python raises `ValueError` for stride 0;
the claims only use positive ratios, and for `r = 0` this definition
behaves like `r = 1`.) -/
def strideList (r : Nat) : List α → List α
  | [] => []
  | x :: rest => x :: strideList r (rest.drop (r - 1))
termination_by l => l.length
decreasing_by simp; omega

/-- `data[::r]` on an ndarray: decimation along the leading time axis. -/
def strideArr (r : Nat) (a : NDArr) : NDArr :=
  { a with rows := strideList r a.rows }

/-- `downsample_modality(modality, downsampling_ratio, metadata)`
(`downsample_metric.py`): reads `modality.data`, `modality.timevector` and
`modality.sampling_rate` (each a materializing property), builds a
`ModalityData` with both arrays decimated by the ratio and the sampling
rate divided by it, and constructs a new instance of the same concrete
class (`modality.__class__`) from that parsed data, passing the original's
`meta_path`, `load_path` and `time_offset` (the last again a materializing
property access). -/
def downsample_modality (m : Modality) (L : Loaders) (ratio : Nat)
    (metadata : Option ModalityMetaData) : Except PyErr Modality := do
  let (d, m1) ← dataGet m L
  let (tv, m2) ← timevectorGet m1 L
  let (sr, m3) ← samplingRateGet m2 L
  let md : ModalityData :=
    { data := strideArr ratio d
      sampling_rate := sr / (ratio : ℚ)
      timevector := strideList ratio tv }
  let (toff, m4) ← timeOffsetGet m3 L
  -- `modality.meta_path` returns `self._meta_path` unchanged (the locally
  -- computed default path in the getter is never assigned).
  modalityInit m4.className (some md) metadata none m4.metaPath m4.load_path toff

/-- Python `dict` lookup on an insertion-ordered association list. -/
def dictLookup (d : List (List Char × α)) (key : List Char) : Option α :=
  match d with
  | [] => none
  | (k, v) :: rest => if k = key then some v else dictLookup rest key

/-- Python `d[k] = v`: replace in place if the key exists, else append. -/
def dictInsert (d : List (List Char × α)) (key : List Char) (v : α) :
    List (List Char × α) :=
  match d with
  | [] => [(key, v)]
  | (k, w) :: rest =>
      if k = key then (key, v) :: rest else (k, w) :: dictInsert rest key v

/-- The dict denoted by a sequence of `d[k] = v` assignments in order (the
semantics of a dict comprehension). -/
def pyDict (l : List (List Char × α)) : List (List Char × α) :=
  l.foldl (fun d kv => dictInsert d kv.1 kv.2) []

/-- A `Recording` restricted to what the claims touch: its modality
mapping, keyed by canonical name, plus the exclusion flag.  (Prompt
metadata, textgrids and annotations are out-of-scope collaborators no
claim mentions.) -/
structure Recording where
  modalities : List (List Char × Modality) := []
  excluded : Bool := false

/-- `Recording.add_modality(modality, replace=False)`: key is
`modality.name`; raises `ModalityError` when the name is present and
`replace` is false, otherwise stores the instance under the name (both the
`replace` and the fresh-name branches perform the same dict assignment). -/
def add_modality (r : Recording) (m : Modality) (replace : Bool := false) :
    Except PyErr Recording :=
  let name := modalityName m
  if (dictLookup r.modalities name).isSome ∧ ¬replace then
    .error .modalityError
  else
    .ok { r with modalities := dictInsert r.modalities name m }

/-- Modelled from the spec: `Recording.__getitem__` — the provided
`data_structures.py` snapshot does not define the mapping dunders although
`downsample_metrics` (in src) uses `recording[key]`; the spec specifies
`Recording[name] -> Modality`, mapping-style access by canonical name into
the Recording's modality mapping (a missing key is a `KeyError`). -/
def Recording.getitem (r : Recording) (name : List Char) :
    Except PyErr Modality :=
  match dictLookup r.modalities name with
  | some m => .ok m
  | none => .error .keyError

/-- Modelled from the spec: `Recording.__contains__` — `name in Recording
-> bool`, key membership in the modality mapping. -/
def Recording.containsName (r : Recording) (name : List Char) : Bool :=
  (dictLookup r.modalities name).isSome

/-- Modelled from the spec: `Recording.__iter__` — `for name in Recording`
yields the modality names (the mapping's keys in insertion order). -/
def Recording.iterNames (r : Recording) : List (List Char) :=
  r.modalities.map Prod.fst

/-- Decimal digit character, `chr(48 + d)`. -/
def digitChar (d : Nat) : Char := Char.ofNat (48 + d)

/-- Numeric value of a digit character. -/
def charVal (c : Char) : Nat := c.toNat - 48

/-- Python `str(n)` for a non-negative integer: its decimal digits,
most-significant first. -/
def pyNatStr (n : Nat) : List Char :=
  if n = 0 then ['0'] else ((Nat.digits 10 n).map digitChar).reverse

/-- Numeric value of a digit string (inverse of `pyNatStr`). -/
def pyNatDecode (l : List Char) : Nat :=
  Nat.ofDigits 10 (l.reverse.map charVal)

/-- `SplineMetricEnum`, the union of `SplineDiffsEnum` (point-to-point
distance metrics), `SplineNNDsEnum` (nearest-neighbour metrics) and
`SplineShapesEnum` (shape metrics). -/
inductive SplineMetricEnum where
  | apbpd
  | mpbpd
  | spline_l1
  | spline_l2
  | annd
  | mnnd
  | curvature
  | fourier
  | modified_curvature
  | procrustes
  deriving DecidableEq, Repr, Fintype

/-- The `.value` string of each spline-metric enum member. -/
def SplineMetricEnum.value : SplineMetricEnum → List Char
  | .apbpd => pychars "apbpd"
  | .mpbpd => pychars "mpbpd"
  | .spline_l1 => pychars "spline_l1"
  | .spline_l2 => pychars "spline_l2"
  | .annd => pychars "annd"
  | .mnnd => pychars "mnnd"
  | .curvature => pychars "curvature"
  | .fourier => pychars "fourier"
  | .modified_curvature => pychars "modified_curvature"
  | .procrustes => pychars "procrustes"

/-- Membership test `params.metric in SplineShapesEnum` (the
value-compared enum metaclass): true exactly for the four shape metrics. -/
def SplineMetricEnum.isShape : SplineMetricEnum → Bool
  | .curvature => true
  | .fourier => true
  | .modified_curvature => true
  | .procrustes => true
  | _ => false

/-- `SplineMetricParameters`: parameters generating a SplineMetric
modality.  `parent_name`, `metric`, `timestep` (a `PositiveInt`),
`release_data_memory` and `exclude_points` are declared in
`spline_metric.py`.  The last two fields are modelled from the spec: the
derived-modality parameter objects carry `is_downsampled: bool` and
`downsampling_ratio: optional int`; `generate_name` (src) and
`downsample_metrics` (src) read and write them, but their declaration on
the `ModalityMetaData` base class is missing from the provided
`data_structures.py` snapshot. -/
structure SplineMetricParameters where
  parent_name : List Char
  metric : SplineMetricEnum := .mpbpd
  timestep : Nat := 1
  release_data_memory : Bool := false
  exclude_points : Option (Int × Int) := none
  is_downsampled : Bool := false
  downsamplingRatio : Option Int := none
  deriving DecidableEq, Repr

/-- `SplineMetric.generate_name(params)`: `cls.__name__ + " " +
params.metric.value`, then `" ts" + str(params.timestep)` when the
timestep is not 1 and the metric is not a shape metric, then `" on " +
params.parent_name` when that is truthy.  When `params.is_downsampled` the
source then evaluates `name_string + " downsampled by " +
params.downsampling_ratio` — a `str` concatenated with an `int` (or
`None`), which raises `TypeError` in Python (unlike the timestep branch,
no `str()` conversion is applied). -/
def generate_name (params : SplineMetricParameters) : Except PyErr (List Char) :=
  let name1 := pychars "SplineMetric" ++ pychars " " ++ params.metric.value
  let name2 :=
    if params.timestep ≠ 1 ∧ params.metric.isShape = false then
      name1 ++ pychars " ts" ++ pyNatStr params.timestep
    else name1
  let name3 :=
    if params.parent_name ≠ [] then
      name2 ++ pychars " on " ++ params.parent_name
    else name2
  if params.is_downsampled then .error .typeError else .ok name3

/-- The parameter object built by `get_names_and_meta` for one (metric,
timestep) combination of its cartesian product (the other inputs held
fixed at one value each; the modelled downsampling fields keep their
pydantic defaults, as `product_dict` never sets them). -/
def mkSplineMetricParams (parentName : List Char) (metric : SplineMetricEnum)
    (timestep : Nat) (excludePoints : Option (Int × Int))
    (releaseDataMemory : Bool) : SplineMetricParameters :=
  { parent_name := parentName
    metric := metric
    timestep := timestep
    release_data_memory := releaseDataMemory
    exclude_points := excludePoints
    is_downsampled := false
    downsamplingRatio := none }

/-- `SplineMetric.get_names_and_meta(modality, metrics, timesteps,
exclude_points, release_data_memory)`: `parent_name` is
`modality.__name__` (the class name of the parent modality, passed in here
as a string).  An empty `timesteps` defaults to `[1]`.  An empty `metrics`
is replaced by the bare enum member `SplineDiffsEnum.MPBPD` (not a list),
over which the subsequent cartesian product raises `TypeError`.  The
cartesian product over {parent} × metrics × timesteps × {exclude_points} ×
{release_data_memory} is modelled from the spec (`product_dict` lives in
`satkit.helpers`, which is missing from the provided sources); the dict
comprehension `{generate_name(params): params}` is `pyDict`. -/
def get_names_and_meta (parentName : List Char)
    (metrics : List SplineMetricEnum) (timesteps : List Nat)
    (excludePoints : Option (Int × Int)) (releaseDataMemory : Bool) :
    Except PyErr (List (List Char × SplineMetricParameters)) :=
  if metrics.isEmpty then .error .typeError
  else
    let tss := if timesteps.isEmpty then [1] else timesteps
    let params := metrics.flatMap (fun m =>
      tss.map (fun t =>
        mkSplineMetricParams parentName m t excludePoints releaseDataMemory))
    match params.mapM (fun p =>
      (generate_name p).map (fun n => (n, p))) with
    | .error e => .error e
    | .ok pairs => .ok (pyDict pairs)

/-! Lemmas about decimal rendering: `pyNatDecode` inverts `pyNatStr`, so
`pyNatStr` is injective. -/

theorem charVal_digitChar (d : Nat) (h : d < 10) :
    charVal (digitChar d) = d := by
  interval_cases d <;> decide

theorem pyNatDecode_pyNatStr (n : Nat) : pyNatDecode (pyNatStr n) = n := by
  by_cases h : n = 0
  · subst h; decide
  · unfold pyNatStr pyNatDecode
    rw [if_neg h, List.reverse_reverse, List.map_map]
    have hmap : (Nat.digits 10 n).map (charVal ∘ digitChar) =
        (Nat.digits 10 n).map id := by
      apply List.map_congr_left
      intro d hd
      have : d < 10 := Nat.digits_lt_base (by norm_num) hd
      simp [charVal_digitChar d this]
    rw [hmap, List.map_id]
    exact Nat.ofDigits_digits 10 n

theorem pyNatStr_inj {a b : Nat} (h : pyNatStr a = pyNatStr b) : a = b := by
  have := congrArg pyNatDecode h
  rwa [pyNatDecode_pyNatStr, pyNatDecode_pyNatStr] at this

/-! Lemmas about list prefixes, stated on the executable `List.isPrefixOf`
so that the pairwise facts about the ten metric value strings can be
settled by `decide`. -/

theorem append_ne_of_isPrefixOf_eq_false {l1 l2 : List Char}
    (h : l1.isPrefixOf l2 = false) : ∀ t, l1 ++ t ≠ l2 := by
  induction l1 generalizing l2 with
  | nil => simp [List.isPrefixOf] at h
  | cons a as ih =>
      intro t hab
      cases l2 with
      | nil => simp at hab
      | cons b bs =>
          simp only [List.isPrefixOf, Bool.and_eq_false_iff, beq_eq_false_iff_ne,
            ne_eq] at h
          simp only [List.cons_append, List.cons.injEq] at hab
          rcases h with h | h
          · exact h hab.1
          · exact ih h t hab.2

/-- No spline-metric value string is a prefix of a different one: the key
combinatorial fact behind canonical-name injectivity.  Settled by
evaluating `isPrefixOf` on all 100 ordered pairs. -/
theorem metricValue_prefixFree :
    ∀ m1 m2 : SplineMetricEnum, m1 ≠ m2 →
      (SplineMetricEnum.value m1).isPrefixOf (SplineMetricEnum.value m2) = false := by
  decide

/-- The successful result of `generate_name`, as an explicit concatenation
of the four name parts. -/
theorem generate_name_ok (p : SplineMetricParameters)
    (hds : p.is_downsampled = false) :
    generate_name p = .ok
      ((pychars "SplineMetric" ++ pychars " " ++ p.metric.value)
        ++ (if p.timestep ≠ 1 ∧ p.metric.isShape = false then
              pychars " ts" ++ pyNatStr p.timestep else [])
        ++ (if p.parent_name ≠ [] then pychars " on " ++ p.parent_name
            else [])) := by
  unfold generate_name
  rw [hds]
  simp only [Bool.false_eq_true, if_false]
  congr 1
  by_cases h1 : p.timestep ≠ 1 ∧ p.metric.isShape = false <;>
    by_cases h2 : p.parent_name ≠ [] <;>
      simp [h1, h2, List.append_assoc]

/-- Canonical-name injectivity at the level of the name parts: equal names
(with a common parent suffix) force equal metrics, and equal timesteps
unless the metric is a shape metric (whose names omit the timestep). -/
theorem tsSuffix_ne_nil (t : Nat) : pychars " ts" ++ pyNatStr t ≠ [] := by
  intro h
  have h3 : (pychars " ts" ++ pyNatStr t).length = 0 := by rw [h]; rfl
  rw [List.length_append] at h3
  have h4 : (pychars " ts").length = 3 := by decide
  omega

theorem namePieces_inj (m1 m2 : SplineMetricEnum) (t1 t2 : Nat)
    (suf : List Char)
    (h : m1.value
          ++ (if t1 ≠ 1 ∧ m1.isShape = false then
                pychars " ts" ++ pyNatStr t1 else []) ++ suf
        = m2.value
          ++ (if t2 ≠ 1 ∧ m2.isShape = false then
                pychars " ts" ++ pyNatStr t2 else []) ++ suf) :
    m1 = m2 ∧ (t1 ≠ t2 → m1.isShape = true) := by
  have h2 := List.append_cancel_right h
  have hm : m1 = m2 := by
    by_contra hne
    rcases List.append_eq_append_iff.mp h2 with ⟨a, ha, _⟩ | ⟨c, hc, _⟩
    · exact append_ne_of_isPrefixOf_eq_false
        (metricValue_prefixFree m1 m2 hne) a ha.symm
    · exact append_ne_of_isPrefixOf_eq_false
        (metricValue_prefixFree m2 m1 (Ne.symm hne)) c hc.symm
  subst hm
  refine ⟨rfl, fun hne => ?_⟩
  by_contra hsh
  have hsh' : m1.isShape = false := by
    cases hv : m1.isShape
    · rfl
    · exact absurd hv hsh
  have h3 := List.append_cancel_left h2
  by_cases h1 : t1 = 1
  · subst h1
    rw [if_neg (by simp), if_pos ⟨fun hc => hne hc.symm, hsh'⟩] at h3
    exact tsSuffix_ne_nil t2 h3.symm
  · by_cases ht2 : t2 = 1
    · subst ht2
      rw [if_pos ⟨h1, hsh'⟩, if_neg (by simp)] at h3
      exact tsSuffix_ne_nil t1 h3
    · rw [if_pos ⟨h1, hsh'⟩, if_pos ⟨ht2, hsh'⟩] at h3
      exact hne (pyNatStr_inj (List.append_cancel_left h3))

/-- The string a successful `generate_name` returns, as a function of the
parameters (proved below to be that return value). -/
def canonicalName (p : SplineMetricParameters) : List Char :=
  (pychars "SplineMetric" ++ pychars " " ++ p.metric.value)
    ++ (if p.timestep ≠ 1 ∧ p.metric.isShape = false then
          pychars " ts" ++ pyNatStr p.timestep else [])
    ++ (if p.parent_name ≠ [] then pychars " on " ++ p.parent_name else [])

theorem generate_name_eq_ok (p : SplineMetricParameters)
    (hds : p.is_downsampled = false) :
    generate_name p = .ok (canonicalName p) :=
  generate_name_ok p hds

/-- Canonical names with a common parent determine the metric, and the
timestep as well unless the metric is a shape metric. -/
theorem canonicalName_inj (p1 p2 : SplineMetricParameters)
    (hpar : p1.parent_name = p2.parent_name)
    (h : canonicalName p1 = canonicalName p2) :
    p1.metric = p2.metric ∧
      (p1.timestep ≠ p2.timestep → p1.metric.isShape = true) := by
  unfold canonicalName at h
  rw [hpar] at h
  simp only [List.append_assoc] at h
  have h' := List.append_cancel_left (List.append_cancel_left h)
  rw [← List.append_assoc, ← List.append_assoc] at h'
  exact namePieces_inj p1.metric p2.metric p1.timestep p2.timestep _ h'

/-! Lemmas about stride decimation `l[::r]`. -/

theorem strideList_length {α : Type} (r : Nat) (hr : 0 < r) :
    ∀ l : List α, (strideList r l).length = (l.length + r - 1) / r := by
  suffices H : ∀ n, ∀ l : List α, l.length ≤ n →
      (strideList r l).length = (l.length + r - 1) / r from
    fun l => H l.length l le_rfl
  intro n
  induction n with
  | zero =>
      intro l hl
      have hnil : l = [] := List.eq_nil_of_length_eq_zero (Nat.le_zero.mp hl)
      subst hnil
      simp only [strideList, List.length_nil]
      exact (Nat.div_eq_of_lt (by omega)).symm
  | succ n ih =>
      intro l hl
      cases l with
      | nil =>
          simp only [strideList, List.length_nil]
          exact (Nat.div_eq_of_lt (by omega)).symm
      | cons x rest =>
          rw [strideList]
          simp only [List.length_cons]
          have hdrop : (rest.drop (r - 1)).length ≤ n := by
            rw [List.length_drop]
            simp only [List.length_cons] at hl
            omega
          rw [ih _ hdrop, List.length_drop]
          rcases Nat.lt_or_ge rest.length r with hmr | hmr
          · rw [show rest.length - (r - 1) = 0 by omega]
            rw [Nat.div_eq_of_lt (show 0 + r - 1 < r by omega)]
            rw [show rest.length + 1 + r - 1 = rest.length + r by omega,
              Nat.add_div_right _ hr, Nat.div_eq_of_lt hmr]
          · rw [show rest.length - (r - 1) + r - 1 = rest.length by omega,
              show rest.length + 1 + r - 1 = rest.length + r by omega,
              Nat.add_div_right _ hr]

theorem strideList_getElem {α : Type} (r : Nat) (hr : 0 < r) :
    ∀ (i : Nat) (l : List α), (strideList r l)[i]? = l[r * i]? := by
  intro i
  induction i with
  | zero =>
      intro l
      cases l with
      | nil => simp [strideList]
      | cons x rest => simp [strideList]
  | succ i ih =>
      intro l
      cases l with
      | nil => simp [strideList]
      | cons x rest =>
          obtain ⟨k, rfl⟩ : ∃ k, r = k + 1 := ⟨r - 1, by omega⟩
          rw [strideList]
          rw [List.getElem?_cons_succ, ih, List.getElem?_drop]
          rw [show k + 1 - 1 + (k + 1) * i = k + (k + 1) * i by omega]
          rw [show (k + 1) * (i + 1) = (k + (k + 1) * i) + 1 by ring]
          rw [List.getElem?_cons_succ]

/-! Lemmas about the Python dict embedding. -/

theorem dictLookup_dictInsert_self {α : Type} (d : List (List Char × α))
    (k : List Char) (v : α) : dictLookup (dictInsert d k v) k = some v := by
  induction d with
  | nil => simp [dictInsert, dictLookup]
  | cons e rest ih =>
      obtain ⟨k', v'⟩ := e
      by_cases h : k' = k
      · simp [dictInsert, h, dictLookup]
      · simp [dictInsert, h, dictLookup, ih]

theorem dictLookup_isSome_iff {α : Type} (d : List (List Char × α))
    (k : List Char) : (dictLookup d k).isSome ↔ k ∈ d.map Prod.fst := by
  induction d with
  | nil => simp [dictLookup]
  | cons e rest ih =>
      obtain ⟨k', v'⟩ := e
      simp only [List.map_cons, List.mem_cons]
      by_cases h : k' = k
      · rw [show dictLookup ((k', v') :: rest) k
              = if k' = k then some v' else dictLookup rest k from rfl,
          if_pos h]
        simp only [Option.isSome_some, true_iff]
        exact Or.inl h.symm
      · rw [show dictLookup ((k', v') :: rest) k
              = if k' = k then some v' else dictLookup rest k from rfl,
          if_neg h, ih]
        constructor
        · exact fun hm => Or.inr hm
        · intro hm
          rcases hm with hm | hm
          · exact absurd hm.symm h
          · exact hm

theorem mem_dictInsert_self {α : Type} (d : List (List Char × α))
    (k : List Char) (v : α) : (k, v) ∈ dictInsert d k v := by
  induction d with
  | nil => simp [dictInsert]
  | cons e rest ih =>
      obtain ⟨k', v'⟩ := e
      by_cases h : k' = k
      · simp [dictInsert, h]
      · simp only [dictInsert, if_neg h, List.mem_cons]
        exact Or.inr ih

theorem mem_dictInsert_of_ne {α : Type} {d : List (List Char × α)}
    {e : List Char × α} {k : List Char} {v : α}
    (he : e ∈ d) (hne : e.1 ≠ k) : e ∈ dictInsert d k v := by
  induction d with
  | nil => simp at he
  | cons f rest ih =>
      obtain ⟨k', v'⟩ := f
      by_cases h : k' = k
      · simp only [dictInsert, if_pos h, List.mem_cons]
        rcases List.mem_cons.mp he with he1 | he2
        · exfalso
          apply hne
          rw [he1, ← h]
        · exact Or.inr he2
      · simp only [dictInsert, if_neg h, List.mem_cons]
        rcases List.mem_cons.mp he with he1 | he2
        · exact Or.inl he1
        · exact Or.inr (ih he2)

theorem mem_of_mem_dictInsert {α : Type} {d : List (List Char × α)}
    {e : List Char × α} {k : List Char} {v : α}
    (he : e ∈ dictInsert d k v) : e ∈ d ∨ e = (k, v) := by
  induction d with
  | nil =>
      simp only [dictInsert, List.mem_singleton] at he
      exact Or.inr he
  | cons f rest ih =>
      obtain ⟨k', v'⟩ := f
      by_cases h : k' = k
      · simp only [dictInsert, if_pos h, List.mem_cons] at he
        rcases he with he1 | he2
        · exact Or.inr he1
        · exact Or.inl (List.mem_cons_of_mem _ he2)
      · simp only [dictInsert, if_neg h, List.mem_cons] at he
        rcases he with he1 | he2
        · exact Or.inl (he1 ▸ List.mem_cons_self _ rest)
        · rcases ih he2 with h3 | h3
          · exact Or.inl (List.mem_cons_of_mem _ h3)
          · exact Or.inr h3

theorem dictInsert_cons {α : Type} (k' : List Char) (v' : α)
    (rest : List (List Char × α)) (k : List Char) (v : α) :
    dictInsert ((k', v') :: rest) k v =
      if k' = k then (k, v) :: rest else (k', v') :: dictInsert rest k v := rfl

theorem keys_dictInsert {α : Type} (d : List (List Char × α))
    (k : List Char) (v : α) :
    (dictInsert d k v).map Prod.fst =
      if k ∈ d.map Prod.fst then d.map Prod.fst
      else d.map Prod.fst ++ [k] := by
  induction d with
  | nil => simp [dictInsert]
  | cons f rest ih =>
      obtain ⟨k', v'⟩ := f
      rw [dictInsert_cons]
      by_cases h : k' = k
      · subst h
        rw [if_pos rfl]
        simp only [List.map_cons]
        rw [if_pos (List.mem_cons_self _ _)]
      · rw [if_neg h]
        simp only [List.map_cons, ih, List.mem_cons]
        by_cases h2 : k ∈ rest.map Prod.fst
        · rw [if_pos h2, if_pos (Or.inr h2)]
        · have hnotin : ¬(k = k' ∨ k ∈ rest.map Prod.fst) := by
            intro hc
            rcases hc with hc | hc
            · exact h hc.symm
            · exact h2 hc
          rw [if_neg h2, if_neg hnotin, List.cons_append]

theorem keys_nodup_dictInsert {α : Type} {d : List (List Char × α)}
    (hd : (d.map Prod.fst).Nodup) (k : List Char) (v : α) :
    ((dictInsert d k v).map Prod.fst).Nodup := by
  rw [keys_dictInsert]
  by_cases h : k ∈ d.map Prod.fst
  · simpa [h]
  · simp only [if_neg h]
    refine List.Nodup.append hd (List.nodup_singleton k) ?_
    intro a ha hk
    rw [List.mem_singleton] at hk
    exact h (hk ▸ ha)

theorem foldl_dictInsert_keys_nodup {α : Type} (l : List (List Char × α)) :
    ∀ acc : List (List Char × α), (acc.map Prod.fst).Nodup →
      ((l.foldl (fun d kv => dictInsert d kv.1 kv.2) acc).map Prod.fst).Nodup := by
  induction l with
  | nil => intro acc h; simpa using h
  | cons e rest ih =>
      intro acc h
      exact ih _ (keys_nodup_dictInsert h e.1 e.2)

theorem keys_nodup_pyDict {α : Type} (l : List (List Char × α)) :
    ((pyDict l).map Prod.fst).Nodup :=
  foldl_dictInsert_keys_nodup l [] (by simp)

theorem foldl_dictInsert_mem_sound {α : Type} (l : List (List Char × α)) :
    ∀ acc : List (List Char × α),
      ∀ f ∈ l.foldl (fun d kv => dictInsert d kv.1 kv.2) acc,
        f ∈ acc ∨ f ∈ l := by
  induction l with
  | nil => intro acc f hf; exact Or.inl hf
  | cons x rest ih =>
      intro acc f hf
      rcases ih (dictInsert acc x.1 x.2) f hf with h | h
      · rcases mem_of_mem_dictInsert h with h2 | h2
        · exact Or.inl h2
        · exact Or.inr (by simp [h2])
      · exact Or.inr (List.mem_cons_of_mem x h)

theorem mem_pyDict_sound {α : Type} {l : List (List Char × α)}
    {e : List Char × α} (he : e ∈ pyDict l) : e ∈ l := by
  rcases foldl_dictInsert_mem_sound l [] e he with h | h
  · simp at h
  · exact h

theorem foldl_dictInsert_mem_complete {α : Type} (l : List (List Char × α)) :
    ∀ acc : List (List Char × α),
      (∀ e1 ∈ l, ∀ e2 ∈ l, e1.1 = e2.1 → e1.2 = e2.2) →
      (∀ a ∈ acc, ∀ b ∈ l, a.1 = b.1 → a.2 = b.2) →
      ∀ e, (e ∈ acc ∨ e ∈ l) →
        e ∈ l.foldl (fun d kv => dictInsert d kv.1 kv.2) acc := by
  induction l with
  | nil =>
      intro acc _ _ e he
      rcases he with h | h
      · exact h
      · simp at h
  | cons x rest ih =>
      intro acc hcoh' hcross e he
      apply ih (dictInsert acc x.1 x.2)
      · intro e1 h1 e2 h2 hk
        exact hcoh' e1 (List.mem_cons_of_mem x h1) e2
          (List.mem_cons_of_mem x h2) hk
      · intro a ha b hb hk
        rcases mem_of_mem_dictInsert ha with h2 | h2
        · exact hcross a h2 b (List.mem_cons_of_mem x hb) hk
        · subst h2
          exact hcoh' x (List.mem_cons_self x rest) b
            (List.mem_cons_of_mem x hb) hk
      · rcases he with h | h
        · by_cases hk : e.1 = x.1
          · have hv : e.2 = x.2 := hcross e h x (List.mem_cons_self x rest) hk
            have he2 : e = (x.1, x.2) := Prod.ext hk hv
            rw [he2]
            exact Or.inl (mem_dictInsert_self acc x.1 x.2)
          · exact Or.inl (mem_dictInsert_of_ne h hk)
        · rcases List.mem_cons.mp h with h2 | h2
          · rw [h2]
            exact Or.inl (mem_dictInsert_self acc x.1 x.2)
          · exact Or.inr h2

theorem mem_pyDict_complete {α : Type} {l : List (List Char × α)}
    (hcoh : ∀ e1 ∈ l, ∀ e2 ∈ l, e1.1 = e2.1 → e1.2 = e2.2) :
    ∀ e ∈ l, e ∈ pyDict l := fun e he =>
  foldl_dictInsert_mem_complete l [] hcoh
    (fun a ha => (List.not_mem_nil a ha).elim) e (Or.inr he)

/-- A successful `generate_name` means the parameters are not marked
downsampled and the name is `canonicalName`. -/
theorem generate_name_ok_iff (p : SplineMetricParameters) (n : List Char) :
    generate_name p = .ok n ↔
      p.is_downsampled = false ∧ n = canonicalName p := by
  constructor
  · intro h
    cases hds : p.is_downsampled
    · rw [generate_name_eq_ok p hds] at h
      exact ⟨rfl, (Except.ok.injEq _ _).mp h.symm⟩
    · unfold generate_name at h
      rw [hds] at h
      simp at h
  · intro ⟨hds, hn⟩
    rw [generate_name_eq_ok p hds, hn]

/-! Concrete fixtures used by witnesses and counterexamples. -/

/-- A 4-sample 1-D float array. -/
def arr1 : NDArr :=
  { dtype := pychars "float64", tshape := [], rows := [[1], [2], [3], [4]] }

/-- Same dtype, size and shape as `arr1`, different values. -/
def arr2 : NDArr :=
  { dtype := pychars "float64", tshape := [], rows := [[5], [6], [7], [8]] }

/-- Same dtype and size as `arr1` but shape (1, 4) instead of (4,). -/
def arr3 : NDArr :=
  { dtype := pychars "float64", tshape := [4], rows := [[5, 6, 7, 8]] }

/-- A timevector starting at 0.0 at 100 Hz. -/
def tv4 : List ℚ := [0, 1/100, 2/100, 3/100]

/-- Metadata whose `parent_name` is `None` (falsy). -/
def noSourceMeta : ModalityMetaData := { parent_name := none }

/-- A Modality with no data_path, no load_path and an empty parent name,
and nothing resident. -/
def c1mod : Modality :=
  { className := pychars "RawSensorArray", metadata := some noSourceMeta }

/-- A Modality with resident data, a timevector starting at 0.0 (hence a
cached time offset of 0.0) and no source to re-materialize from. -/
def c10mod : Modality :=
  { className := pychars "RawSensorArray"
    metadata := some noSourceMeta
    dataF := some arr1
    samplingRateF := some 100
    timevectorF := some tv4
    timeOffsetF := some 0 }

/-- Like `c10mod` but with a nonzero time offset, so every property getter
returns its cached value. -/
def dsmod : Modality :=
  { c10mod with
      timevectorF := some [1/10, 2/10, 3/10, 4/10]
      timeOffsetF := some (1/10) }

/-- An empty Recording. -/
def rec0 : Recording := { modalities := [] }

/-! The claims. -/

/-- C1: for a Modality with no resident data, first access to the `data`,
`timevector` or `sampling_rate` property materializes through `_get_data`,
which reads from `data_path` if set, else loads from `load_path` if set,
else derives from the modality named by `metadata.parent_name`; with none
of the three sources available the access raises `MissingDataError` — in
particular a Modality with no `data_path`, no `load_path` and an empty
`metadata.parent_name` raises `MissingDataError` on first array access. -/
theorem C1_lazy_materialization (m : Modality) (L : Loaders) :
    (m.data_path.isSome = true → getData m L = L.read)
    ∧ (m.data_path = none → m.load_path.isSome = true → getData m L = L.load)
    ∧ (∀ md, m.data_path = none → m.load_path = none → m.metadata = some md →
        truthyStr md.parent_name = true → getData m L = L.derive)
    ∧ (∀ md, m.data_path = none → m.load_path = none → m.metadata = some md →
        truthyStr md.parent_name = false →
        getData m L = .error .missingDataError)
    ∧ (m.dataF = none →
        dataGet m L = (getData m L).map (fun d => (d.data, setData m d)))
    ∧ (m.timevectorF = none →
        timevectorGet m L
          = (getData m L).map (fun d => (d.timevector, setData m d)))
    ∧ (falsyQ m.samplingRateF = true →
        samplingRateGet m L
          = (getData m L).map (fun d => (d.sampling_rate, setData m d)))
    ∧ (m.dataF = none → m.data_path = none → m.load_path = none →
        ∀ md, m.metadata = some md → truthyStr md.parent_name = false →
        dataGet m L = .error .missingDataError) := by
  have hroute : ∀ md, m.data_path = none → m.load_path = none →
      m.metadata = some md → truthyStr md.parent_name = false →
      getData m L = .error .missingDataError := by
    intro md h1 h2 h3 h4
    simp [getData, h1, h2, h3, h4]
  have hdata : m.dataF = none →
      dataGet m L = (getData m L).map (fun d => (d.data, setData m d)) := by
    intro h
    unfold dataGet
    rw [h]
    cases getData m L <;> rfl
  refine ⟨?_, ?_, ?_, hroute, hdata, ?_, ?_, ?_⟩
  · intro h; simp [getData, h]
  · intro h1 h2; simp [getData, h1, h2]
  · intro md h1 h2 h3 h4; simp [getData, h1, h2, h3, h4]
  · intro h
    unfold timevectorGet
    rw [h]
    cases getData m L <;> rfl
  · intro h
    unfold samplingRateGet
    rw [h]
    cases getData m L <;> rfl
  · intro h h1 h2 md h3 h4
    rw [hdata h, hroute md h1 h2 h3 h4]
    rfl

/-- Witness for C1: the sourceless modality errors on first array
access. -/
theorem C1_witness : dataGet c1mod baseLoaders = .error .missingDataError :=
  (C1_lazy_materialization c1mod baseLoaders).2.2.2.2.2.2.2
    rfl rfl rfl noSourceMeta rfl rfl

/-- C10: a Modality whose cached time offset is 0.0 (falsy) with resident
data and timevector but no data_path, no load_path and an empty parent
name raises `MissingDataError` when the `time_offset` property is read:
the getter guard `if not self._time_offset` re-enters materialization. -/
theorem C10_time_offset_getter_missing_data (m : Modality) (L : Loaders)
    (md : ModalityMetaData)
    (hoff : m.timeOffsetF = some 0) (hdp : m.data_path = none)
    (hlp : m.load_path = none) (hmd : m.metadata = some md)
    (hpn : truthyStr md.parent_name = false)
    (_hdata : m.dataF.isSome = true) (_htv : m.timevectorF.isSome = true) :
    timeOffsetGet m L = .error .missingDataError := by
  have hget : getData m L = .error .missingDataError := by
    simp [getData, hdp, hlp, hmd, hpn]
  unfold timeOffsetGet
  rw [hoff]
  simp [falsyQ, hget]

/-- Witness for C10: the fixture with resident arrays and cached offset
0.0 errors on reading `time_offset`. -/
theorem C10_witness :
    timeOffsetGet c10mod baseLoaders = .error .missingDataError :=
  C10_time_offset_getter_missing_data c10mod baseLoaders noSourceMeta
    rfl rfl rfl rfl rfl rfl rfl

/-- C9 (code bug): the `time_offset` setter's guard `if self.timevector:`
takes the numpy truth value of the timevector, which raises `ValueError`
for any array of two or more elements, so assigning a new offset to a
Modality with a real (multi-sample) timevector raises instead of shifting
the timevector; the property's own docstring promises the shift that keeps
`timevector[0] == time_offset`.  Evaluated here on a resident 4-sample
timevector. -/
theorem C9_time_offset_setter_value_error :
    timeOffsetSet c10mod baseLoaders 1 = .error .valueError := rfl

/-- C3, counterexample: the claim says assignment with no prior resident
array (first assignment) succeeds, but the setter's guard evaluates the
materializing `data` property (`if self.data is not None and ...`), so on
a sourceless Modality with nothing resident it raises `MissingDataError`
instead of storing the array. -/
theorem C3_set_data_counterexample :
    dataSetter c1mod baseLoaders (some arr1) = .error .missingDataError := rfl

/-- C3, amended: with an array resident, replacement by an array of equal
dtype, size and shape succeeds and is returned by the next read; any
mismatch raises `OverWriteError`; assigning `None` releases the array and
leaves the timevector and metadata unchanged.  When nothing is resident
the setter first materializes through the `data` property (raising
`MissingDataError` if no source is available, as the counterexample
shows). -/
theorem C3_set_data_amended (m : Modality) (L : Loaders) (cur : NDArr)
    (hres : m.dataF = some cur) :
    (∀ nd : NDArr,
      nd.dtype = cur.dtype ∧ nd.size = cur.size ∧ nd.shape = cur.shape →
      dataSetter m L (some nd) = .ok { m with dataF := some nd }
        ∧ dataGet { m with dataF := some nd } L
            = .ok (nd, { m with dataF := some nd }))
    ∧ (∀ nd : NDArr,
        ¬(nd.dtype = cur.dtype ∧ nd.size = cur.size ∧ nd.shape = cur.shape) →
        dataSetter m L (some nd) = .error .overWriteError)
    ∧ (dataSetter m L none = .ok { m with dataF := none }
        ∧ ({ m with dataF := none } : Modality).timevectorF = m.timevectorF
        ∧ ({ m with dataF := none } : Modality).metadata = m.metadata) := by
  have hget : dataGet m L = .ok (cur, m) := by
    unfold dataGet
    rw [hres]
  refine ⟨?_, ?_, ?_, rfl, rfl⟩
  · intro nd hmatch
    unfold dataSetter
    rw [hget]
    constructor
    · simp [hmatch]
    · unfold dataGet
      rfl
  · intro nd hmatch
    unfold dataSetter
    rw [hget]
    simp [hmatch]
  · unfold dataSetter
    rw [hget]

/-- Witness for C3's amended theorem: replacing the resident array of the
fixture by an equal-shaped array succeeds. -/
theorem C3_witness :
    dataSetter c10mod baseLoaders (some arr2)
      = .ok { c10mod with dataF := some arr2 } :=
  ((C3_set_data_amended c10mod baseLoaders arr1 rfl).1 arr2
    (by refine ⟨rfl, rfl, rfl⟩)).1

/-- C6: `add_modality` raises `ModalityError` when the modality's name is
already a key of the Recording's mapping and `replace` is false (the
mapping is left untouched, as the raise precedes any assignment); with
`replace=true` the new instance is stored and retrievable under the name;
with an absent name the modality is inserted under its name. -/
theorem C6_add_modality_contract (r : Recording) (m : Modality) :
    ((dictLookup r.modalities (modalityName m)).isSome = true →
      add_modality r m false = .error .modalityError)
    ∧ (add_modality r m true
        = .ok { r with
            modalities := dictInsert r.modalities (modalityName m) m }
      ∧ dictLookup (dictInsert r.modalities (modalityName m) m)
          (modalityName m) = some m)
    ∧ ((dictLookup r.modalities (modalityName m)).isSome = false →
        add_modality r m false
          = .ok { r with
              modalities := dictInsert r.modalities (modalityName m) m }
        ∧ dictLookup (dictInsert r.modalities (modalityName m) m)
            (modalityName m) = some m) := by
  refine ⟨?_, ⟨?_, dictLookup_dictInsert_self _ _ _⟩,
    fun h => ⟨?_, dictLookup_dictInsert_self _ _ _⟩⟩
  · intro h
    simp [add_modality, h]
  · simp [add_modality]
  · simp [add_modality, h]

/-- Witness for C6: inserting into an empty Recording succeeds, and a
second insert under the same name with `replace=false` errors. -/
theorem C6_witness :
    add_modality rec0 c10mod false
      = .ok { rec0 with
          modalities := dictInsert [] (modalityName c10mod) c10mod }
    ∧ add_modality
        { rec0 with
            modalities := dictInsert [] (modalityName c10mod) c10mod }
        c10mod false
      = .error .modalityError :=
  ⟨((C6_add_modality_contract rec0 c10mod).2.2 rfl).1,
    (C6_add_modality_contract
      { rec0 with
          modalities := dictInsert [] (modalityName c10mod) c10mod }
      c10mod).1 (by rw [show
        ({ rec0 with
            modalities := dictInsert [] (modalityName c10mod) c10mod }
          : Recording).modalities
        = dictInsert [] (modalityName c10mod) c10mod from rfl,
      dictLookup_dictInsert_self]; rfl)⟩

/-- C7: `recording[name]` returns the Modality stored under `name` in the
Recording's modality mapping (`KeyError` when absent), `name in recording`
is key membership in that mapping, and iterating over the Recording yields
its modality names. -/
theorem C7_mapping_access (r : Recording) (n : List Char) :
    (∀ m, Recording.getitem r n = .ok m ↔ dictLookup r.modalities n = some m)
    ∧ (Recording.getitem r n = .error .keyError ↔
        dictLookup r.modalities n = none)
    ∧ (Recording.containsName r n = true ↔ n ∈ Recording.iterNames r)
    ∧ Recording.iterNames r = r.modalities.map Prod.fst := by
  refine ⟨?_, ?_, dictLookup_isSome_iff r.modalities n, rfl⟩
  · intro m
    unfold Recording.getitem
    cases dictLookup r.modalities n <;> simp
  · unfold Recording.getitem
    cases dictLookup r.modalities n <;> simp

/-- Witness for C7: after a replacing insert, the modality is retrievable
by its name through `recording[name]`. -/
theorem C7_witness :
    Recording.getitem
      { rec0 with
          modalities := dictInsert [] (modalityName c10mod) c10mod }
      (modalityName c10mod) = .ok c10mod :=
  ((C7_mapping_access
      { rec0 with
          modalities := dictInsert [] (modalityName c10mod) c10mod }
      (modalityName c10mod)).1 c10mod).mpr
    (dictLookup_dictInsert_self [] (modalityName c10mod) c10mod)

/-- C2, counterexample: the claim quantifies over every Modality with
resident data, but `downsample_modality` also reads the `time_offset`
property, whose getter treats a cached offset of 0.0 as unset (C10); on a
modality whose timevector starts at 0.0 and which has no re-materialization
source, `downsample_modality` therefore raises `MissingDataError` instead
of returning the decimated Modality. -/
theorem C2_downsample_counterexample :
    downsample_modality c10mod baseLoaders 2 (some noSourceMeta)
      = .error .missingDataError := rfl

/-- C2, amended: for a Modality whose cached data, timevector, sampling
rate and time offset are all resident and whose sampling rate and time
offset are nonzero (so no getter re-enters materialization), and a
positive ratio, `downsample_modality` returns a new Modality of the same
concrete class whose data is the input data decimated by stride `r` (of
stride-decimated length `ceil(n/r)`), whose timevector is exactly
`timevector[::r]`, and whose sampling rate is the input rate divided by
`r`. -/
theorem C2_downsample_amended (m : Modality) (L : Loaders) (r : Nat)
    (meta : Option ModalityMetaData) (d : NDArr) (tv : List ℚ) (sr t : ℚ)
    (hd : m.dataF = some d) (htv : m.timevectorF = some tv)
    (hsr : m.samplingRateF = some sr) (ht : m.timeOffsetF = some t)
    (hsr0 : sr ≠ 0) (ht0 : t ≠ 0) (hr : 0 < r) (htv0 : tv ≠ []) :
    downsample_modality m L r meta
      = .ok { className := m.className
              data_path := none
              load_path := m.load_path
              metaPath := m.metaPath
              metadata := meta
              dataF := some (strideArr r d)
              samplingRateF := some (sr / (r : ℚ))
              timevectorF := some (strideList r tv)
              timeOffsetF := some (tv.headD 0)
              excluded := false }
    ∧ (strideArr r d).rows.length = (d.rows.length + r - 1) / r
    ∧ (strideList r tv).length = (tv.length + r - 1) / r
    ∧ (∀ i, (strideList r tv)[i]? = tv[r * i]?)
    ∧ (∀ i, (strideArr r d).rows[i]? = d.rows[r * i]?) := by
  have h1 : dataGet m L = .ok (d, m) := by
    unfold dataGet; rw [hd]
  have h2 : timevectorGet m L = .ok (tv, m) := by
    unfold timevectorGet; rw [htv]
  have h3 : samplingRateGet m L = .ok (sr, m) := by
    unfold samplingRateGet
    rw [hsr]
    simp [falsyQ, hsr0]
  have h4 : timeOffsetGet m L = .ok (some t, m) := by
    unfold timeOffsetGet
    rw [ht]
    simp [falsyQ, ht0]
  refine ⟨?_,
    strideList_length r hr d.rows,
    strideList_length r hr tv,
    fun i => strideList_getElem r hr i tv,
    fun i => strideList_getElem r hr i d.rows⟩
  unfold downsample_modality
  rw [h1]
  show (timevectorGet m L >>= _) = _
  rw [h2]
  show (samplingRateGet m L >>= _) = _
  rw [h3]
  show (timeOffsetGet m L >>= _) = _
  rw [h4]
  show modalityInit m.className
      (some { data := strideArr r d, sampling_rate := sr / (r : ℚ),
              timevector := strideList r tv })
      meta none m.metaPath m.load_path (some t) = _
  cases tv with
  | nil => exact absurd rfl htv0
  | cons t0 tvrest =>
      unfold modalityInit
      rw [strideList]
      rfl

/-- Witness for C2's amended theorem: decimating the 4-sample fixture with
nonzero offset by 2 keeps samples 0 and 2, halves the rate, and preserves
the concrete class. -/
theorem C2_witness :
    downsample_modality dsmod baseLoaders 2 (some noSourceMeta)
      = .ok { className := dsmod.className
              data_path := none
              load_path := dsmod.load_path
              metaPath := dsmod.metaPath
              metadata := some noSourceMeta
              dataF := some (strideArr 2 arr1)
              samplingRateF := some ((100 : ℚ) / (2 : ℚ))
              timevectorF := some (strideList 2 [1/10, 2/10, 3/10, 4/10])
              timeOffsetF := some (([(1:ℚ)/10, 2/10, 3/10, 4/10]).headD 0)
              excluded := false } :=
  (C2_downsample_amended dsmod baseLoaders 2 (some noSourceMeta) arr1
    [1/10, 2/10, 3/10, 4/10] 100 (1/10) rfl rfl rfl rfl
    (by norm_num) (by norm_num) (by norm_num)
    (List.cons_ne_nil _ _)).1

/-- C4: `generate_name` is deterministic; two parameter objects differing
only in `metric`, or only in `timestep` when the metric is
timestep-sensitive (not a shape metric), generate different names; two
objects differing only in `release_data_memory` generate the same name. -/
theorem C4_generate_name_identity :
    (∀ p q : SplineMetricParameters, p = q →
      generate_name p = generate_name q)
    ∧ (∀ (p : SplineMetricParameters) (m2 : SplineMetricEnum)
        (n1 n2 : List Char),
        m2 ≠ p.metric →
        generate_name p = .ok n1 →
        generate_name { p with metric := m2 } = .ok n2 → n1 ≠ n2)
    ∧ (∀ (p : SplineMetricParameters) (t2 : Nat) (n1 n2 : List Char),
        p.metric.isShape = false → t2 ≠ p.timestep →
        generate_name p = .ok n1 →
        generate_name { p with timestep := t2 } = .ok n2 → n1 ≠ n2)
    ∧ (∀ (p : SplineMetricParameters) (b : Bool),
        generate_name { p with release_data_memory := b }
          = generate_name p) := by
  refine ⟨fun p q h => congrArg _ h, ?_, ?_, fun p b => rfl⟩
  · intro p m2 n1 n2 hne h1 h2 heq
    obtain ⟨_, hn1⟩ := (generate_name_ok_iff p n1).mp h1
    obtain ⟨_, hn2⟩ := (generate_name_ok_iff _ n2).mp h2
    rw [hn1, hn2] at heq
    have h5 := canonicalName_inj p { p with metric := m2 } rfl heq
    have h6 : p.metric = m2 := h5.1
    exact hne h6.symm
  · intro p t2 n1 n2 hsh hne h1 h2 heq
    obtain ⟨_, hn1⟩ := (generate_name_ok_iff p n1).mp h1
    obtain ⟨_, hn2⟩ := (generate_name_ok_iff _ n2).mp h2
    rw [hn1, hn2] at heq
    have h5 := canonicalName_inj p { p with timestep := t2 } rfl heq
    have h6 : p.timestep ≠ t2 → p.metric.isShape = true := h5.2
    have h7 := h6 (fun hc => hne hc.symm)
    rw [hsh] at h7
    exact Bool.false_ne_true h7

/-- Witness for C4: two parameter objects differing only in the metric
generate the names "SplineMetric mpbpd on Splines" and "SplineMetric apbpd
on Splines", which differ. -/
theorem C4_witness :
    generate_name { parent_name := pychars "Splines" }
      = .ok (pychars "SplineMetric mpbpd on Splines")
    ∧ generate_name
        { ({ parent_name := pychars "Splines" } : SplineMetricParameters)
          with metric := .apbpd }
      = .ok (pychars "SplineMetric apbpd on Splines")
    ∧ pychars "SplineMetric mpbpd on Splines"
        ≠ pychars "SplineMetric apbpd on Splines" := by
  refine ⟨rfl, rfl, ?_⟩
  exact C4_generate_name_identity.2.1 { parent_name := pychars "Splines" }
    .apbpd _ _ (by decide) rfl rfl

/-- C5 (code bug): for parameters marked as downsampled the source
computes `name_string + " downsampled by " + params.downsampling_ratio`,
concatenating a `str` with the `int` (or `None`) ratio without the `str()`
conversion the timestep branch uses, so Python raises `TypeError` instead
of returning the claimed name with suffix `" downsampled by 2"`.
Evaluated at parameters marked downsampled with ratio 2. -/
theorem C5_downsampled_name_type_error :
    generate_name
      { parent_name := pychars "Splines"
        is_downsampled := true
        downsamplingRatio := some 2 } = .error .typeError := rfl

/-- Name generation over a batch of parameter objects, none marked
downsampled, succeeds with the canonical names. -/
theorem mapM_generate_name (ps : List SplineMetricParameters)
    (h : ∀ p ∈ ps, p.is_downsampled = false) :
    ps.mapM (fun p => (generate_name p).map (fun n => (n, p)))
      = .ok (ps.map (fun p => (canonicalName p, p))) := by
  induction ps with
  | nil => rw [List.mapM_nil]; rfl
  | cons p rest ih =>
      rw [List.mapM_cons,
        generate_name_eq_ok p (h p (List.mem_cons_self p rest)),
        ih (fun q hq => h q (List.mem_cons_of_mem p hq))]
      rfl

/-- C8, counterexample: the claim demands exactly one mapping entry per
(metric, timestep) combination of the cartesian product, but shape-metric
names omit the timestep, so the two combinations (curvature, 1) and
(curvature, 2) generate the same name and the dict comprehension collapses
them into a single entry (the later timestep's parameter object wins). -/
theorem C8_names_meta_counterexample :
    get_names_and_meta (pychars "Splines")
      [.curvature] [1, 2] none false
      = .ok [(pychars "SplineMetric curvature on Splines",
              mkSplineMetricParams (pychars "Splines") .curvature 2
                none false)] := rfl

/-- C8, amended: for a non-empty list of metrics none of which is a shape
metric (or equivalently whenever names cannot collide) and a non-empty
list of timesteps, `get_names_and_meta` succeeds and returns a mapping
with exactly one entry per (metric, timestep) combination: its keys are
distinct, every combination's canonical name maps to that combination's
parameter object (with `parent_name` set to the parent's name), every
entry arises from some combination, and distinct combinations generate
distinct names.  Shape metrics at several timesteps share a name and are
merged, as the counterexample shows. -/
theorem C8_names_meta_amended (pn : List Char)
    (metrics : List SplineMetricEnum) (tss : List Nat)
    (ex : Option (Int × Int)) (rel : Bool)
    (hm : metrics ≠ []) (ht : tss ≠ [])
    (hshape : ∀ m ∈ metrics, m.isShape = false) :
    (∃ d, get_names_and_meta pn metrics tss ex rel = .ok d)
    ∧ (∀ d, get_names_and_meta pn metrics tss ex rel = .ok d →
        (d.map Prod.fst).Nodup
        ∧ (∀ m ∈ metrics, ∀ t ∈ tss,
            (canonicalName (mkSplineMetricParams pn m t ex rel),
              mkSplineMetricParams pn m t ex rel) ∈ d)
        ∧ (∀ e ∈ d, ∃ m ∈ metrics, ∃ t ∈ tss,
            e = (canonicalName (mkSplineMetricParams pn m t ex rel),
                  mkSplineMetricParams pn m t ex rel)))
    ∧ (∀ m1 ∈ metrics, ∀ t1 ∈ tss, ∀ m2 ∈ metrics, ∀ t2 ∈ tss,
        canonicalName (mkSplineMetricParams pn m1 t1 ex rel)
          = canonicalName (mkSplineMetricParams pn m2 t2 ex rel) →
        m1 = m2 ∧ t1 = t2) := by
  have hinj : ∀ m1 ∈ metrics, ∀ (t1 : Nat), ∀ m2 ∈ metrics, ∀ (t2 : Nat),
      canonicalName (mkSplineMetricParams pn m1 t1 ex rel)
        = canonicalName (mkSplineMetricParams pn m2 t2 ex rel) →
      m1 = m2 ∧ t1 = t2 := by
    intro m1 hm1 t1 m2 _ t2 hcn
    have h5 := canonicalName_inj (mkSplineMetricParams pn m1 t1 ex rel)
      (mkSplineMetricParams pn m2 t2 ex rel) rfl hcn
    have h6 : m1 = m2 := h5.1
    have h7 : t1 ≠ t2 → SplineMetricEnum.isShape m1 = true := h5.2
    refine ⟨h6, ?_⟩
    by_contra hne
    have h8 := h7 hne
    rw [hshape m1 hm1] at h8
    exact Bool.false_ne_true h8
  have hie : metrics.isEmpty = false := by
    cases metrics with
    | nil => exact absurd rfl hm
    | cons a b => rfl
  have hte : tss.isEmpty = false := by
    cases tss with
    | nil => exact absurd rfl ht
    | cons a b => rfl
  have hmem : ∀ p ∈ metrics.flatMap
      (fun m => tss.map (fun t => mkSplineMetricParams pn m t ex rel)),
      ∃ m ∈ metrics, ∃ t ∈ tss, p = mkSplineMetricParams pn m t ex rel := by
    intro p hp
    rcases List.mem_flatMap.mp hp with ⟨m, hmm', hpm⟩
    rcases List.mem_map.mp hpm with ⟨t, htm, hpt⟩
    exact ⟨m, hmm', t, htm, hpt.symm⟩
  have hds : ∀ p ∈ metrics.flatMap
      (fun m => tss.map (fun t => mkSplineMetricParams pn m t ex rel)),
      p.is_downsampled = false := by
    intro p hp
    rcases hmem p hp with ⟨m, _, t, _, rfl⟩
    rfl
  have hok : get_names_and_meta pn metrics tss ex rel
      = .ok (pyDict ((metrics.flatMap
          (fun m => tss.map (fun t => mkSplineMetricParams pn m t ex rel))).map
            (fun p => (canonicalName p, p)))) := by
    unfold get_names_and_meta
    simp only [hie, hte, Bool.false_eq_true, if_false]
    rw [mapM_generate_name _ hds]
  have hcoh : ∀ e1 ∈ (metrics.flatMap
        (fun m => tss.map (fun t => mkSplineMetricParams pn m t ex rel))).map
          (fun p => (canonicalName p, p)),
      ∀ e2 ∈ (metrics.flatMap
        (fun m => tss.map (fun t => mkSplineMetricParams pn m t ex rel))).map
          (fun p => (canonicalName p, p)),
      e1.1 = e2.1 → e1.2 = e2.2 := by
    intro e1 he1 e2 he2 hk
    rcases List.mem_map.mp he1 with ⟨p1, hp1, rfl⟩
    rcases List.mem_map.mp he2 with ⟨p2, hp2, rfl⟩
    rcases hmem p1 hp1 with ⟨m1, hm1, t1, ht1, rfl⟩
    rcases hmem p2 hp2 with ⟨m2, hm2, t2, ht2, rfl⟩
    obtain ⟨hmeq, hteq⟩ := hinj m1 hm1 t1 m2 hm2 t2 hk
    rw [hmeq, hteq]
  refine ⟨⟨_, hok⟩, ?_, fun m1 hm1 t1 _ m2 hm2 t2 _ hcn =>
    hinj m1 hm1 t1 m2 hm2 t2 hcn⟩
  intro d hd
  rw [hok] at hd
  have hdd := (Except.ok.injEq _ _).mp hd
  subst hdd
  refine ⟨keys_nodup_pyDict _, ?_, ?_⟩
  · intro m hm' t ht'
    apply mem_pyDict_complete hcoh
    apply List.mem_map_of_mem
    exact List.mem_flatMap.mpr ⟨m, hm', List.mem_map.mpr ⟨t, ht', rfl⟩⟩
  · intro e he
    rcases List.mem_map.mp (mem_pyDict_sound he) with ⟨p, hp, rfl⟩
    rcases hmem p hp with ⟨m, hm', t, ht', rfl⟩
    exact ⟨m, hm', t, ht', rfl⟩

/-- Witness for C8's amended theorem: one non-shape metric and one
timestep give the singleton mapping from the canonical name to the
parameter object, and that entry is reported by the theorem. -/
theorem C8_witness :
    get_names_and_meta (pychars "Splines") [.mpbpd] [1] none false
      = .ok [(pychars "SplineMetric mpbpd on Splines",
              mkSplineMetricParams (pychars "Splines") .mpbpd 1 none false)]
    ∧ (pychars "SplineMetric mpbpd on Splines",
        mkSplineMetricParams (pychars "Splines") .mpbpd 1 none false)
      ∈ [(pychars "SplineMetric mpbpd on Splines",
          mkSplineMetricParams (pychars "Splines") .mpbpd 1 none false)] :=
  ⟨rfl,
    (((C8_names_meta_amended (pychars "Splines") [.mpbpd] [1] none false
        (by decide) (by decide) (by decide)).2.1
      [(pychars "SplineMetric mpbpd on Splines",
        mkSplineMetricParams (pychars "Splines") .mpbpd 1 none false)]
      rfl).2.1 .mpbpd (List.mem_cons_self _ _) 1 (List.mem_cons_self _ _))⟩

end Satkit
